import Mathlib

/-!
# Signed-contract pipeline and identity generator

A shallow embedding of the two Go programs of the repository:

* `src/test/main.go` (namespace `Test`): reads a key pair, a certificate and a
  contract, then signs, verifies, "decrypts", executes and stores the contract;
* `src/certificate + key generation ECDSA/main.go` (namespace `KeyGen`):
  generates a P-256 key pair and a self-signed certificate and writes them as
  PEM files.

Every program function becomes a Lean function in the monad `Proc`, which
records the observable events of a run (file accesses, printed lines, calls
into `crypto/x509` and `go.mozilla.org/pkcs7`, entry into the functions of the
program) and whether the process was ended by `log.Fatalf`.  The operating
system and the imported packages are not part of the repository; they are
parameters of the model (the structure `World`).
-/

namespace CryptoContract

/-- A Go byte slice (`[]byte`); `none` is the nil slice. -/
abbrev Bytes := Option (List Nat)

/-- A non-nil Go `error` value, identified with its message; a Go `error`
that may be nil is an `Option Error`. -/
abbrev Error := String

/-- The functions of the two programs whose invocation is recorded. -/
inductive Fn where
  | signContract
  | verifySignature
  | decryptContract
  | executeContract
  | saveSignedContract
  | generatePrivateKey
  | savePrivateKey
  | savePublicKey
  | generateCertificate
  | saveCertificate
  | handleError
  deriving DecidableEq, Repr

/-- Observable events of a run. -/
inductive Event where
  /-- Call of `os.ReadFile(name)`. -/
  | ReadFile (name : String)
  /-- Call of `fmt.Println`: the line written to standard output. -/
  | Println (line : String)
  /-- Call of `log.Fatalf`: the line written to standard error before `os.Exit(1)`. -/
  | Fatalf (line : String)
  /-- Entry into a function of the program, with its byte-slice arguments. -/
  | Enter (fn : Fn) (args : List Bytes)
  /-- Call into an imported package (`crypto/x509`, `pkcs7`, `crypto/ecdsa`). -/
  | Lib (fn : String)
  /-- Call of `cmd.Run()` for `exec.Command(name, flag, string(script))`. -/
  | Run (name : String) (flag : String) (script : Bytes)
  /-- Call of `os.Create(name)`. -/
  | Create (name : String)
  /-- The bytes handed to the file `name` for writing. -/
  | Write (name : String) (data : Bytes)
  /-- The deferred `file.Close()`. -/
  | Close (name : String)
  deriving DecidableEq, Repr

/-- A run of a piece of the program: the events it produced, and its result;
`result = none` means that the process has been ended by `log.Fatalf`. -/
structure Proc (α : Type) where
  trace : List Event
  result : Option α

/-- Return without any event. -/
def Proc.pure {α : Type} (a : α) : Proc α := ⟨[], some a⟩

/-- Sequencing: nothing runs after the process has exited. -/
def Proc.bind {α β : Type} (x : Proc α) (f : α → Proc β) : Proc β :=
  match x.result with
  | none => ⟨x.trace, none⟩
  | some a => ⟨x.trace ++ (f a).trace, (f a).result⟩

instance : Monad Proc where
  pure := Proc.pure
  bind := Proc.bind

/-- Record one event. -/
def emit (e : Event) : Proc Unit := ⟨[e], some ()⟩

/-- An action of the environment: the event `e` is recorded and the
environment answers `r`. -/
def effect {α : Type} (e : Event) (r : α) : Proc α := ⟨[e], some r⟩

/-- Go `log.Fatalf`: print the line and end the process with status 1. -/
def Fatalf {α : Type} (line : String) : Proc α := ⟨[Event.Fatalf line], none⟩

/-- Exit status of the process for a run of `main`: 1 after `log.Fatalf`,
0 when `main` returns. -/
def exitStatus (p : Proc Unit) : Nat :=
  match p.result with
  | some _ => 0
  | none => 1

/-- The entries into functions of the program, in order. -/
def calls (t : List Event) : List (Fn × List Bytes) :=
  t.filterMap fun e =>
    match e with
    | Event.Enter fn args => some (fn, args)
    | _ => none

/-- The calls into imported packages, in order. -/
def libCalls (t : List Event) : List String :=
  t.filterMap fun e =>
    match e with
    | Event.Lib fn => some fn
    | _ => none

/-- The output of a run: printed lines, processes run, files created, written
and closed. -/
def outputs (t : List Event) : List Event :=
  t.filter fun e =>
    match e with
    | Event.Println _ => true
    | Event.Fatalf _ => true
    | Event.Run _ _ _ => true
    | Event.Create _ => true
    | Event.Write _ _ => true
    | Event.Close _ => true
    | _ => false

namespace Test

/-- The environment of `src/test/main.go`: the file system, the Python
interpreter, and the packages `crypto/x509` and `go.mozilla.org/pkcs7`.  Each
field gives the outcome, in the run considered, of the call of that name
(`AddSigner` draws a nonce and reads the clock, so its outcome belongs to the
run, not to its arguments alone). -/
structure World where
  /-- Go type `*x509.Certificate`. -/
  Certificate : Type
  /-- Go type `*ecdsa.PrivateKey`. -/
  PrivateKey : Type
  /-- Go type `*pkcs7.SignedData` (the builder). -/
  SignedData : Type
  /-- Go type `*pkcs7.PKCS7` (a parsed message). -/
  PKCS7 : Type
  ReadFile : String → Except Error Bytes
  ParseCertificate : Bytes → Except Error Certificate
  ParseECPrivateKey : Bytes → Except Error PrivateKey
  NewSignedData : Bytes → Except Error SignedData
  /-- Call `p7.AddSigner(cert, key, pkcs7.SignerInfoConfig{})`; the builder after
  the call is returned. -/
  AddSigner : SignedData → Certificate → PrivateKey → Except Error SignedData
  Finish : SignedData → Except Error Bytes
  Parse : Bytes → Except Error PKCS7
  Verify : PKCS7 → Option Error
  /-- Call `p7.Decrypt(cert, pkey)`; `pkey = none` is the nil private key. -/
  Decrypt : PKCS7 → Certificate → Option PrivateKey → Except Error Bytes
  /-- The public field `Content` of a parsed message. -/
  Content : PKCS7 → Bytes
  /-- Whether the parsed message is enveloped (encrypted) data rather than
  signed data. -/
  isEnveloped : PKCS7 → Bool
  /-- Outcome of `cmd.Run()`. -/
  Run : String → String → Bytes → Option Error
  Create : String → Option Error
  Write : String → Bytes → Option Error

/-- Go `signContract` (src/test/main.go, lines 74-106). -/
def signContract (w : World) (contract privateKey publicKey certificate : Bytes) :
    Proc (Bytes × Option Error) := do
  emit (.Enter .signContract [contract, privateKey, publicKey, certificate])
  match (← effect (.Lib "x509.ParseCertificate") (w.ParseCertificate certificate)) with
  | .error err => pure (none, some err)
  | .ok cert =>
    match (← effect (.Lib "x509.ParseECPrivateKey") (w.ParseECPrivateKey privateKey)) with
    | .error err => pure (none, some err)
    | .ok key =>
      match (← effect (.Lib "pkcs7.NewSignedData") (w.NewSignedData contract)) with
      | .error err => pure (none, some err)
      | .ok p7 =>
        match (← effect (.Lib "pkcs7.AddSigner") (w.AddSigner p7 cert key)) with
        | .error err => pure (none, some err)
        | .ok p7 =>
          match (← effect (.Lib "pkcs7.Finish") (w.Finish p7)) with
          | .error err => pure (none, some err)
          | .ok signedData => pure (signedData, none)

/-- Go `verifySignature` (lines 109-123). -/
def verifySignature (w : World) (signedContract certificate : Bytes) :
    Proc (Option Error) := do
  emit (.Enter .verifySignature [signedContract, certificate])
  match (← effect (.Lib "pkcs7.Parse") (w.Parse signedContract)) with
  | .error err => pure (some err)
  | .ok p7 =>
    match (← effect (.Lib "pkcs7.Verify") (w.Verify p7)) with
    | some err => pure (some err)
    | none => pure none

/-- Go `decryptContract` (lines 126-146). -/
def decryptContract (w : World) (signedContract publicKey : Bytes) :
    Proc (Bytes × Option Error) := do
  emit (.Enter .decryptContract [signedContract, publicKey])
  match (← effect (.Lib "x509.ParseCertificate") (w.ParseCertificate publicKey)) with
  | .error err => pure (none, some err)
  | .ok cert =>
    match (← effect (.Lib "pkcs7.Parse") (w.Parse signedContract)) with
    | .error err => pure (none, some err)
    | .ok p7 =>
      match (← effect (.Lib "pkcs7.Decrypt") (w.Decrypt p7 cert none)) with
      | .error err => pure (none, some err)
      | .ok decryptedData => pure (decryptedData, none)

/-- Go `executeContract` (lines 149-161). -/
def executeContract (w : World) (contract : Bytes) : Proc (Option Error) := do
  emit (.Enter .executeContract [contract])
  match (← effect (.Run "python3" "-c" contract) (w.Run "python3" "-c" contract)) with
  | some err => pure (some err)
  | none => pure none

/-- Go `saveSignedContract` (lines 164-177); the deferred `file.Close()` runs
on every return that follows a successful `os.Create`. -/
def saveSignedContract (w : World) (signedContract : Bytes) (filePath : String) :
    Proc (Option Error) := do
  emit (.Enter .saveSignedContract [signedContract])
  match (← effect (.Create filePath) (w.Create filePath)) with
  | some err => pure (some err)
  | none =>
    match (← effect (.Write filePath signedContract) (w.Write filePath signedContract)) with
    | some err => do
      emit (.Close filePath)
      pure (some err)
    | none => do
      emit (.Close filePath)
      pure none

/-- The five stages of `signContract` all succeed on the given inputs, and
`Finish` yields `signedData`. -/
def signStages (w : World) (contract privateKey certificate signedData : Bytes) : Prop :=
  ∃ cert key p7 p7s, w.ParseCertificate certificate = .ok cert ∧
    w.ParseECPrivateKey privateKey = .ok key ∧ w.NewSignedData contract = .ok p7 ∧
    w.AddSigner p7 cert key = .ok p7s ∧ w.Finish p7s = .ok signedData

/-- One of the five stages of `signContract` (certificate parsing, key
parsing, signed-data creation, signer addition, finishing) fails with `err`,
the stages before it having succeeded. -/
def signFailure (w : World) (contract privateKey certificate : Bytes) (err : Error) : Prop :=
  w.ParseCertificate certificate = .error err ∨
  ∃ cert, w.ParseCertificate certificate = .ok cert ∧
    (w.ParseECPrivateKey privateKey = .error err ∨
     ∃ key, w.ParseECPrivateKey privateKey = .ok key ∧
      (w.NewSignedData contract = .error err ∨
       ∃ p7, w.NewSignedData contract = .ok p7 ∧
        (w.AddSigner p7 cert key = .error err ∨
         ∃ p7s, w.AddSigner p7 cert key = .ok p7s ∧ w.Finish p7s = .error err)))

def privateKeyPath : String := "private_key.pem"
def publicKeyPath : String := "public_key.pem"
def certificatePath : String := "certificate.crt"
def contractPath : String := "contract.py"
def signedContractPath : String := "signed_contract.p7s"

/-- Go `main` (lines 12-71). -/
def main (w : World) : Proc Unit := do
  match (← effect (.ReadFile privateKeyPath) (w.ReadFile privateKeyPath)) with
  | .error err => Fatalf ("Помилка при читанні приватного ключа: " ++ err)
  | .ok privateKey =>
    match (← effect (.ReadFile publicKeyPath) (w.ReadFile publicKeyPath)) with
    | .error err => Fatalf ("Помилка при читанні публічного ключа: " ++ err)
    | .ok publicKey =>
      match (← effect (.ReadFile certificatePath) (w.ReadFile certificatePath)) with
      | .error err => Fatalf ("Помилка при читанні сертифікату: " ++ err)
      | .ok certificate =>
        match (← effect (.ReadFile contractPath) (w.ReadFile contractPath)) with
        | .error err => Fatalf ("Помилка при читанні контракту: " ++ err)
        | .ok contractContent =>
          match (← signContract w contractContent privateKey publicKey certificate) with
          | (_, some err) => Fatalf ("Помилка при підписі контракту: " ++ err)
          | (signedContract, none) =>
            match (← verifySignature w signedContract certificate) with
            | some _ => emit (.Println "Перевірка підпису неуспішна")
            | none => do
              emit (.Println "Перевірка підпису успішна")
              match (← decryptContract w signedContract publicKey) with
              | (_, some err) => Fatalf ("Помилка при розшифруванні контракту: " ++ err)
              | (decryptedContract, none) =>
                match (← executeContract w decryptedContract) with
                | some err => Fatalf ("Помилка при виконанні контракту: " ++ err)
                | none =>
                  match (← saveSignedContract w signedContract signedContractPath) with
                  | some err => Fatalf ("Помилка при збереженні підписаного контракту: " ++ err)
                  | none => pure ()

end Test

/-! ## PEM encoding (Go package `encoding/pem`) -/

/-- The bytes of an ASCII string. -/
def ascii (s : String) : List Nat := s.data.map Char.toNat

def base64Alphabet : List Nat :=
  ascii "ABCDEFGHIJKLMNOPQRSTUVWXYZabcdefghijklmnopqrstuvwxyz0123456789+/"

/-- The base64 digit of a six-bit value. -/
def b64 (i : Nat) : Nat := base64Alphabet.getD i 0

/-- Standard base64 (with `=` padding) of a list of bytes. -/
def base64 : List Nat → List Nat
  | a :: b :: c :: rest =>
    b64 (a / 4) :: b64 ((a % 4) * 16 + b / 16) :: b64 ((b % 16) * 4 + c / 64) :: b64 (c % 64)
      :: base64 rest
  | [a, b] => [b64 (a / 4), b64 ((a % 4) * 16 + b / 16), b64 ((b % 16) * 4), 61]
  | [a] => [b64 (a / 4), b64 ((a % 4) * 16), 61, 61]
  | [] => []

/-- Lines of 64 characters, each ended by a newline (the `lineBreaker` of
`encoding/pem`); `col` is the number of characters already on the line. -/
def breakLines (col : Nat) : List Nat → List Nat
  | [] => if col = 0 then [] else [10]
  | x :: xs => if col + 1 = 64 then x :: 10 :: breakLines 0 xs else x :: breakLines (col + 1) xs

/-- The text `pem.Encode` writes for `pem.Block{Type: type, Bytes: bytes}`
(no headers): the BEGIN line, the base64 body in lines of 64 characters, the
END line. -/
def pemEncode (type : String) (bytes : Bytes) : Bytes :=
  some (ascii "-----BEGIN " ++ ascii type ++ ascii "-----\n"
    ++ breakLines 0 (base64 (bytes.getD []))
    ++ ascii "-----END " ++ ascii type ++ ascii "-----\n")

/-- The first byte of a byte slice, if any. -/
def firstByte (b : Bytes) : Option Nat := b.bind List.head?

namespace KeyGen

/-- The environment of the identity generator: the file system and the
packages `crypto/ecdsa`, `crypto/x509` and `encoding/pem`. -/
structure World where
  /-- Go type `*ecdsa.PrivateKey`. -/
  PrivateKey : Type
  /-- Go type `*ecdsa.PublicKey`. -/
  PublicKey : Type
  /-- Outcome of `ecdsa.GenerateKey(elliptic.P256(), rand.Reader)`. -/
  GenerateKey : Except Error PrivateKey
  /-- The field `privateKey.PublicKey`. -/
  Public : PrivateKey → PublicKey
  Create : String → Option Error
  MarshalECPrivateKey : PrivateKey → Except Error Bytes
  MarshalPKIXPublicKey : PublicKey → Except Error Bytes
  /-- Outcome of `pem.Encode(file, block)` for the file `name`: the error of
  the underlying writes, if any. -/
  Encode : String → String → Bytes → Option Error
  /-- Outcome of `x509.CreateCertificate(rand.Reader, &template, &template,
  publicKey, privateKey)` for the fixed template of `generateCertificate`. -/
  CreateCertificate : PublicKey → PrivateKey → Except Error Bytes

def privateKeyPath : String := "private_key.pem"
def publicKeyPath : String := "public_key.pem"
def certPath : String := "certificate.crt"

/-- Go `handleError` (lines 127-129): `fmt.Println(message, err)`. -/
def handleError (message : String) (err : Error) : Proc Unit := do
  emit (.Enter .handleError [])
  emit (.Println (message ++ " " ++ err))

/-- Go `generatePrivateKey` (lines 46-48). -/
def generatePrivateKey (w : World) : Proc (Except Error w.PrivateKey) := do
  emit (.Enter .generatePrivateKey [])
  effect (.Lib "ecdsa.GenerateKey") w.GenerateKey

/-- Go `savePrivateKey` (lines 51-71). -/
def savePrivateKey (w : World) (privateKey : w.PrivateKey) : Proc Unit := do
  emit (.Enter .savePrivateKey [])
  match (← effect (.Create privateKeyPath) (w.Create privateKeyPath)) with
  | some err => handleError "Не вдалося створити файл приватного ключа:" err
  | none =>
    match (← effect (.Lib "x509.MarshalECPrivateKey") (w.MarshalECPrivateKey privateKey)) with
    | .error err => do
      handleError "Не вдалося закодувати приватний ключ:" err
      emit (.Close privateKeyPath)
    | .ok privateKeyBytes =>
      match (← effect (.Write privateKeyPath (pemEncode "EC PRIVATE KEY" privateKeyBytes))
          (w.Encode privateKeyPath "EC PRIVATE KEY" privateKeyBytes)) with
      | some err => do
        handleError "Не вдалося зберегти приватний ключ:" err
        emit (.Close privateKeyPath)
      | none => do
        emit (.Println ("Приватний ключ збережено у файлі" ++ " " ++ privateKeyPath))
        emit (.Close privateKeyPath)

/-- Go `savePublicKey` (lines 74-94). -/
def savePublicKey (w : World) (publicKey : w.PublicKey) : Proc Unit := do
  emit (.Enter .savePublicKey [])
  match (← effect (.Create publicKeyPath) (w.Create publicKeyPath)) with
  | some err => handleError "Не вдалося створити файл публічного ключа:" err
  | none =>
    match (← effect (.Lib "x509.MarshalPKIXPublicKey") (w.MarshalPKIXPublicKey publicKey)) with
    | .error err => do
      handleError "Не вдалося закодувати публічний ключ:" err
      emit (.Close publicKeyPath)
    | .ok publicKeyBytes =>
      match (← effect (.Write publicKeyPath (pemEncode "PUBLIC KEY" publicKeyBytes))
          (w.Encode publicKeyPath "PUBLIC KEY" publicKeyBytes)) with
      | some err => do
        handleError "Не вдалося зберегти публічний ключ:" err
        emit (.Close publicKeyPath)
      | none => do
        emit (.Println ("Публічний ключ збережено у файлі" ++ " " ++ publicKeyPath))
        emit (.Close publicKeyPath)

/-- Go `generateCertificate` (lines 97-107). -/
def generateCertificate (w : World) (privateKey : w.PrivateKey) (publicKey : w.PublicKey) :
    Proc (Except Error Bytes) := do
  emit (.Enter .generateCertificate [])
  effect (.Lib "x509.CreateCertificate") (w.CreateCertificate publicKey privateKey)

/-- Go `saveCertificate` (lines 110-124). -/
def saveCertificate (w : World) (certificate : Bytes) : Proc Unit := do
  emit (.Enter .saveCertificate [certificate])
  match (← effect (.Create certPath) (w.Create certPath)) with
  | some err => handleError "Не вдалося створити файл сертифіката:" err
  | none =>
    match (← effect (.Write certPath (pemEncode "CERTIFICATE" certificate))
        (w.Encode certPath "CERTIFICATE" certificate)) with
    | some err => do
      handleError "Не вдалося зберегти сертифікат:" err
      emit (.Close certPath)
    | none => do
      emit (.Println ("Сертифікат збережено у файлі" ++ " " ++ certPath))
      emit (.Close certPath)

/-- Go `main` of the identity generator (lines 21-43). -/
def main (w : World) : Proc Unit := do
  match (← generatePrivateKey w) with
  | .error err => handleError "Не вдалося згенерувати приватний ключ:" err
  | .ok privateKey =>
    savePrivateKey w privateKey
    let publicKey := w.Public privateKey
    savePublicKey w publicKey
    match (← generateCertificate w privateKey publicKey) with
    | .error err => handleError "Не вдалося створити сертифікат:" err
    | .ok certificate =>
      saveCertificate w certificate
      emit (.Println "Операції завершено успішно.")

end KeyGen

/-! ## Executable instances of the environment

Small concrete environments on which the definitions can be run.  Keys and
certificates are DER-like tokens: the SEQUENCE tag `0x30 = 48`, a kind (1
certificate, 2 EC private key, 3 public key) and a number.  The public half of
the secret `d` is `d` itself, the digest of a content is the sum of its bytes,
and the signature of a digest `h` under `d` is `h + d`; these stand in for
P-256, SHA and ECDSA. -/

namespace Test

/-- A signed message of the instance: content, public key of the embedded
signer certificate, signature value. -/
structure RefMessage where
  content : List Nat
  pub : Nat
  sig : Nat
  deriving DecidableEq, Repr

/-- The error `pkcs7.ErrNotEncryptedContent`, which `Decrypt` returns for a
message that is not enveloped data. -/
def ErrNotEncryptedContent : Error := "pkcs7: content data is a decryptable data type"

/-- The contract `print("hello")`. -/
def hello : Bytes := some (ascii "print(\"hello\")")

/-- DER files of a matching key and certificate (secret and public key 7). -/
def derFiles (name : String) : Except Error Bytes :=
  if name = privateKeyPath then .ok (some [48, 2, 7])
  else if name = publicKeyPath then .ok (some [48, 3, 7])
  else if name = certificatePath then .ok (some [48, 1, 7])
  else if name = contractPath then .ok hello
  else .error "no such file or directory"

/-- An environment with DER input files in which the packages behave as
`crypto/x509` and `pkcs7` do on the points used below: the parsers accept
only DER (leading SEQUENCE tag), a message produced by the signer is signed
data, and `Decrypt` rejects a message that is not enveloped data. -/
def refWorld : World where
  Certificate := Nat
  PrivateKey := Nat
  SignedData := RefMessage
  PKCS7 := RefMessage
  ReadFile := derFiles
  ParseCertificate := fun b =>
    match b with
    | some [48, 1, p] => .ok p
    | _ => .error "x509: malformed certificate"
  ParseECPrivateKey := fun b =>
    match b with
    | some [48, 2, d] => .ok d
    | _ => .error "x509: failed to parse EC private key"
  NewSignedData := fun data => .ok ⟨data.getD [], 0, 0⟩
  AddSigner := fun sd cert key => .ok ⟨sd.content, cert, sd.content.sum + key⟩
  Finish := fun sd => .ok (some (48 :: sd.pub :: sd.sig :: sd.content))
  Parse := fun b =>
    match b with
    | some (48 :: p :: s :: content) => .ok ⟨content, p, s⟩
    | _ => .error "pkcs7: malformed message"
  Verify := fun m =>
    if m.sig = m.content.sum + m.pub then none else some "pkcs7: signature mismatch"
  Decrypt := fun _ _ _ => .error ErrNotEncryptedContent
  Content := fun m => some m.content
  isEnveloped := fun _ => false
  Run := fun _ _ _ => none
  Create := fun _ => none
  Write := fun _ _ => none

/-- The files of `refWorld`, except that the certificate belongs to another
key (public key 8). -/
def mismatchedFiles (name : String) : Except Error Bytes :=
  if name = certificatePath then .ok (some [48, 1, 8]) else derFiles name

/-- An environment in which the certificate does not match the private key,
so that the signed contract does not verify. -/
def mismatchWorld : World := { refWorld with ReadFile := mismatchedFiles }

/-- The files of `refWorld`, except that the public-key file holds the
certificate. -/
def certAsKeyFiles (name : String) : Except Error Bytes :=
  if name = publicKeyPath then .ok (some [48, 1, 7]) else derFiles name

/-- An environment in which every stage succeeds: the public-key file holds a
certificate and `Decrypt` hands out the content of the message. -/
def idealWorld : World :=
  { refWorld with
    ReadFile := certAsKeyFiles
    Decrypt := fun m _ _ => .ok (some m.content) }

/-- The environment `idealWorld` with a failing Python interpreter. -/
def failingRunWorld : World :=
  { idealWorld with Run := fun _ _ _ => some "exit status 1" }

/-- The input files as the identity generator writes them: PEM blocks around
the DER data of `refWorld`. -/
def pemFiles (name : String) : Except Error Bytes :=
  if name = privateKeyPath then .ok (pemEncode "EC PRIVATE KEY" (some [48, 2, 7]))
  else if name = publicKeyPath then .ok (pemEncode "PUBLIC KEY" (some [48, 3, 7]))
  else if name = certificatePath then .ok (pemEncode "CERTIFICATE" (some [48, 1, 7]))
  else if name = contractPath then .ok hello
  else .error "no such file or directory"

/-- The environment `refWorld` with the PEM input files. -/
def pemWorld : World := { refWorld with ReadFile := pemFiles }

end Test

namespace KeyGen

/-- An environment of the identity generator in which every stage succeeds;
it produces the DER data of `Test.refWorld`. -/
def refWorld : World where
  PrivateKey := Nat
  PublicKey := Nat
  GenerateKey := .ok 7
  Public := fun d => d
  Create := fun _ => none
  MarshalECPrivateKey := fun d => .ok (some [48, 2, d])
  MarshalPKIXPublicKey := fun p => .ok (some [48, 3, p])
  Encode := fun _ _ _ => none
  CreateCertificate := fun p _ => .ok (some [48, 1, p])

/-- An environment in which key generation fails. -/
def noEntropyWorld : World :=
  { refWorld with GenerateKey := .error "entropy source unavailable" }

/-- An environment in which only the creation of the private-key file fails. -/
def lockedKeyFileWorld : World :=
  { refWorld with
    Create := fun name => if name = privateKeyPath then some "permission denied" else none }

end KeyGen

/-! ## Predicates and traces used in the statements -/

namespace KeyGen

/-- The private-key stage succeeds: the file is created, the key is
marshalled to `keyBytes` and the PEM block is written. -/
def privateKeySaved (w : World) (key : w.PrivateKey) (keyBytes : Bytes) : Prop :=
  w.Create privateKeyPath = none ∧ w.MarshalECPrivateKey key = .ok keyBytes
    ∧ w.Encode privateKeyPath "EC PRIVATE KEY" keyBytes = none

/-- The public-key stage succeeds. -/
def publicKeySaved (w : World) (pub : w.PublicKey) (pubBytes : Bytes) : Prop :=
  w.Create publicKeyPath = none ∧ w.MarshalPKIXPublicKey pub = .ok pubBytes
    ∧ w.Encode publicKeyPath "PUBLIC KEY" pubBytes = none

/-- The certificate stages succeed: the certificate is constructed, its file
is created and the PEM block is written. -/
def certificateSaved (w : World) (key : w.PrivateKey) (certificate : Bytes) : Prop :=
  w.CreateCertificate (w.Public key) key = .ok certificate ∧ w.Create certPath = none
    ∧ w.Encode certPath "CERTIFICATE" certificate = none

/-- Every stage of the identity generator succeeds. -/
def Success (w : World) : Prop :=
  ∃ key keyBytes pubBytes certificate, w.GenerateKey = .ok key
    ∧ privateKeySaved w key keyBytes ∧ publicKeySaved w (w.Public key) pubBytes
    ∧ certificateSaved w key certificate

/-- The events of a successful public-key stage. -/
def publicKeyEvents (pubBytes : Bytes) : List Event :=
  [Event.Enter Fn.savePublicKey [], Event.Create publicKeyPath,
   Event.Lib "x509.MarshalPKIXPublicKey",
   Event.Write publicKeyPath (pemEncode "PUBLIC KEY" pubBytes),
   Event.Println "Публічний ключ збережено у файлі public_key.pem",
   Event.Close publicKeyPath]

/-- The events of a successful private-key stage. -/
def privateKeyEvents (keyBytes : Bytes) : List Event :=
  [Event.Enter Fn.savePrivateKey [], Event.Create privateKeyPath,
   Event.Lib "x509.MarshalECPrivateKey",
   Event.Write privateKeyPath (pemEncode "EC PRIVATE KEY" keyBytes),
   Event.Println "Приватний ключ збережено у файлі private_key.pem",
   Event.Close privateKeyPath]

/-- The events of successful certificate stages, up to the final message. -/
def certificateEvents (certificate : Bytes) : List Event :=
  [Event.Enter Fn.generateCertificate [], Event.Lib "x509.CreateCertificate",
   Event.Enter Fn.saveCertificate [certificate], Event.Create certPath,
   Event.Write certPath (pemEncode "CERTIFICATE" certificate),
   Event.Println "Сертифікат збережено у файлі certificate.crt",
   Event.Close certPath,
   Event.Println "Операції завершено успішно."]

end KeyGen

namespace Test

/-- The trace of a run that gets as far as a successful verification. -/
def verifiedStart (w : World)
    (privateKey publicKey certificate contractContent signedContract : Bytes) : List Event :=
  [Event.ReadFile privateKeyPath, Event.ReadFile publicKeyPath,
    Event.ReadFile certificatePath, Event.ReadFile contractPath]
  ++ (signContract w contractContent privateKey publicKey certificate).trace
  ++ (verifySignature w signedContract certificate).trace
  ++ [Event.Println "Перевірка підпису успішна"]

/-- The signed message of `refWorld` for the contract `hello`, signed with
the secret 7 and carrying a certificate for the public key `pub`. -/
def helloMessage (pub : Nat) : RefMessage := ⟨ascii "print(\"hello\")", pub, 1245⟩

/-- The bytes of `helloMessage pub`. -/
def helloEnvelope (pub : Nat) : Bytes := some (48 :: pub :: 1245 :: ascii "print(\"hello\")")

end Test

end CryptoContract

/-! # Theorems -/

namespace CryptoContract

/-! ## Evaluation lemmas for `Proc` -/

@[simp] theorem Proc.bind_def {α β : Type} (x : Proc α) (f : α → Proc β) :
    x >>= f = Proc.bind x f := rfl

@[simp] theorem Proc.pure_def {α : Type} (a : α) : (Pure.pure a : Proc α) = Proc.pure a := rfl

theorem calls_append (s t : List Event) : calls (s ++ t) = calls s ++ calls t := by
  simp [calls]

theorem outputs_append (s t : List Event) : outputs (s ++ t) = outputs s ++ outputs t := by
  simp [outputs]

theorem libCalls_append (s t : List Event) : libCalls (s ++ t) = libCalls s ++ libCalls t := by
  simp [libCalls]

namespace Test

/-! ## The stages of the pipeline -/

/-- What `signContract` returns, stage by stage. -/
theorem signContract_result (w : World) (contract privateKey publicKey certificate : Bytes) :
    (signContract w contract privateKey publicKey certificate).result = some
      (match w.ParseCertificate certificate with
       | .error err => (none, some err)
       | .ok cert =>
         match w.ParseECPrivateKey privateKey with
         | .error err => (none, some err)
         | .ok key =>
           match w.NewSignedData contract with
           | .error err => (none, some err)
           | .ok p7 =>
             match w.AddSigner p7 cert key with
             | .error err => (none, some err)
             | .ok p7s =>
               match w.Finish p7s with
               | .error err => (none, some err)
               | .ok signedData => (signedData, none)) := by
  unfold signContract
  cases w.ParseCertificate certificate <;> simp [Proc.bind, Proc.pure, emit, effect]
  cases w.ParseECPrivateKey privateKey <;> simp [Proc.bind, Proc.pure, emit, effect]
  cases w.NewSignedData contract <;> simp [Proc.bind, Proc.pure, emit, effect]
  rename_i cert key sd
  cases w.AddSigner sd cert key <;> simp [Proc.bind, Proc.pure, emit, effect]
  rename_i sd2
  cases w.Finish sd2 <;> simp [Proc.bind, Proc.pure, emit, effect]

theorem signContract_calls (w : World) (contract privateKey publicKey certificate : Bytes) :
    calls (signContract w contract privateKey publicKey certificate).trace
      = [(Fn.signContract, [contract, privateKey, publicKey, certificate])] := by
  unfold signContract
  cases w.ParseCertificate certificate <;> simp [Proc.bind, Proc.pure, emit, effect, calls]
  cases w.ParseECPrivateKey privateKey <;> simp [Proc.bind, Proc.pure, emit, effect, calls]
  cases w.NewSignedData contract <;> simp [Proc.bind, Proc.pure, emit, effect, calls]
  rename_i cert key sd
  cases w.AddSigner sd cert key <;> simp [Proc.bind, Proc.pure, emit, effect, calls]
  rename_i sd2
  cases w.Finish sd2 <;> simp [Proc.bind, Proc.pure, emit, effect, calls]

theorem signContract_outputs (w : World) (contract privateKey publicKey certificate : Bytes) :
    outputs (signContract w contract privateKey publicKey certificate).trace = [] := by
  unfold signContract
  cases w.ParseCertificate certificate <;> simp [Proc.bind, Proc.pure, emit, effect, outputs]
  cases w.ParseECPrivateKey privateKey <;> simp [Proc.bind, Proc.pure, emit, effect, outputs]
  cases w.NewSignedData contract <;> simp [Proc.bind, Proc.pure, emit, effect, outputs]
  rename_i cert key sd
  cases w.AddSigner sd cert key <;> simp [Proc.bind, Proc.pure, emit, effect, outputs]
  rename_i sd2
  cases w.Finish sd2 <;> simp [Proc.bind, Proc.pure, emit, effect, outputs]

/-- What `verifySignature` returns: the error of `Parse`, else that of `Verify`. -/
theorem verifySignature_result (w : World) (signedContract certificate : Bytes) :
    (verifySignature w signedContract certificate).result = some
      (match w.Parse signedContract with
       | .error err => some err
       | .ok p7 => w.Verify p7) := by
  unfold verifySignature
  cases w.Parse signedContract <;> simp [Proc.bind, Proc.pure, emit, effect]
  rename_i p7
  cases w.Verify p7 <;> simp [Proc.bind, Proc.pure, emit, effect]

theorem verifySignature_calls (w : World) (signedContract certificate : Bytes) :
    calls (verifySignature w signedContract certificate).trace
      = [(Fn.verifySignature, [signedContract, certificate])] := by
  unfold verifySignature
  cases w.Parse signedContract <;> simp [Proc.bind, Proc.pure, emit, effect, calls]
  rename_i p7
  cases w.Verify p7 <;> simp [Proc.bind, Proc.pure, emit, effect, calls]

theorem verifySignature_outputs (w : World) (signedContract certificate : Bytes) :
    outputs (verifySignature w signedContract certificate).trace = [] := by
  unfold verifySignature
  cases w.Parse signedContract <;> simp [Proc.bind, Proc.pure, emit, effect, outputs]
  rename_i p7
  cases w.Verify p7 <;> simp [Proc.bind, Proc.pure, emit, effect, outputs]

/-- The calls `verifySignature` makes into `pkcs7`. -/
theorem verifySignature_libCalls (w : World) (signedContract certificate : Bytes) :
    libCalls (verifySignature w signedContract certificate).trace
      = (match w.Parse signedContract with
         | .error _ => ["pkcs7.Parse"]
         | .ok _ => ["pkcs7.Parse", "pkcs7.Verify"]) := by
  unfold verifySignature
  cases w.Parse signedContract <;> simp [Proc.bind, Proc.pure, emit, effect, libCalls]
  rename_i p7
  cases w.Verify p7 <;> simp [Proc.bind, Proc.pure, emit, effect, libCalls]

/-- What `decryptContract` returns, stage by stage. -/
theorem decryptContract_result (w : World) (signedContract publicKey : Bytes) :
    (decryptContract w signedContract publicKey).result = some
      (match w.ParseCertificate publicKey with
       | .error err => (none, some err)
       | .ok cert =>
         match w.Parse signedContract with
         | .error err => (none, some err)
         | .ok p7 =>
           match w.Decrypt p7 cert none with
           | .error err => (none, some err)
           | .ok decryptedData => (decryptedData, none)) := by
  unfold decryptContract
  cases w.ParseCertificate publicKey <;> simp [Proc.bind, Proc.pure, emit, effect]
  cases w.Parse signedContract <;> simp [Proc.bind, Proc.pure, emit, effect]
  rename_i cert p7
  cases w.Decrypt p7 cert none <;> simp [Proc.bind, Proc.pure, emit, effect]

theorem decryptContract_calls (w : World) (signedContract publicKey : Bytes) :
    calls (decryptContract w signedContract publicKey).trace
      = [(Fn.decryptContract, [signedContract, publicKey])] := by
  unfold decryptContract
  cases w.ParseCertificate publicKey <;> simp [Proc.bind, Proc.pure, emit, effect, calls]
  cases w.Parse signedContract <;> simp [Proc.bind, Proc.pure, emit, effect, calls]
  rename_i cert p7
  cases w.Decrypt p7 cert none <;> simp [Proc.bind, Proc.pure, emit, effect, calls]

theorem decryptContract_outputs (w : World) (signedContract publicKey : Bytes) :
    outputs (decryptContract w signedContract publicKey).trace = [] := by
  unfold decryptContract
  cases w.ParseCertificate publicKey <;> simp [Proc.bind, Proc.pure, emit, effect, outputs]
  cases w.Parse signedContract <;> simp [Proc.bind, Proc.pure, emit, effect, outputs]
  rename_i cert p7
  cases w.Decrypt p7 cert none <;> simp [Proc.bind, Proc.pure, emit, effect, outputs]

/-- What `executeContract` does: it runs `python3 -c` on the contract and
returns the error of the run. -/
theorem executeContract_eq (w : World) (contract : Bytes) :
    executeContract w contract
      = ⟨[Event.Enter Fn.executeContract [contract], Event.Run "python3" "-c" contract],
         some (w.Run "python3" "-c" contract)⟩ := by
  unfold executeContract
  cases w.Run "python3" "-c" contract <;> simp [Proc.bind, Proc.pure, emit, effect]

/-- What `saveSignedContract` returns: the error of `os.Create`, else that of
the write. -/
theorem saveSignedContract_result (w : World) (signedContract : Bytes) (filePath : String) :
    (saveSignedContract w signedContract filePath).result = some
      (match w.Create filePath with
       | some err => some err
       | none => w.Write filePath signedContract) := by
  unfold saveSignedContract
  cases w.Create filePath <;> simp [Proc.bind, Proc.pure, emit, effect]
  cases w.Write filePath signedContract <;> simp [Proc.bind, Proc.pure, emit, effect]

theorem saveSignedContract_calls (w : World) (signedContract : Bytes) (filePath : String) :
    calls (saveSignedContract w signedContract filePath).trace
      = [(Fn.saveSignedContract, [signedContract])] := by
  unfold saveSignedContract
  cases w.Create filePath <;> simp [Proc.bind, Proc.pure, emit, effect, calls]
  cases w.Write filePath signedContract <;> simp [Proc.bind, Proc.pure, emit, effect, calls]

/-- The output of `saveSignedContract`: the file is created and, when that
succeeds, handed exactly the signed contract and closed. -/
theorem saveSignedContract_outputs (w : World) (signedContract : Bytes) (filePath : String) :
    outputs (saveSignedContract w signedContract filePath).trace
      = (match w.Create filePath with
         | some _ => [Event.Create filePath]
         | none => [Event.Create filePath, Event.Write filePath signedContract,
                    Event.Close filePath]) := by
  unfold saveSignedContract
  cases w.Create filePath <;> simp [Proc.bind, Proc.pure, emit, effect, outputs]
  cases w.Write filePath signedContract <;> simp [Proc.bind, Proc.pure, emit, effect, outputs]


/-! ## The pipeline runner -/

/-- C1. In a run of the pipeline in which the four files are read and
`signContract` succeeds but `verifySignature` returns an error, the run consists
of the four reads, the signing, the verification and the printed failure
notice: `decryptContract`, `executeContract` and `saveSignedContract` are not
entered, nothing is executed or written, `log.Fatalf` is not called, and the
process ends with status 0. -/
theorem main_verification_failure (w : World)
    (privateKey publicKey certificate contractContent signedContract : Bytes) (err : Error)
    (hkey : w.ReadFile privateKeyPath = .ok privateKey)
    (hpub : w.ReadFile publicKeyPath = .ok publicKey)
    (hcert : w.ReadFile certificatePath = .ok certificate)
    (hcontract : w.ReadFile contractPath = .ok contractContent)
    (hsign : (signContract w contractContent privateKey publicKey certificate).result
      = some (signedContract, none))
    (hverify : (verifySignature w signedContract certificate).result = some (some err)) :
    (main w).trace
        = [Event.ReadFile privateKeyPath, Event.ReadFile publicKeyPath,
           Event.ReadFile certificatePath, Event.ReadFile contractPath]
          ++ (signContract w contractContent privateKey publicKey certificate).trace
          ++ (verifySignature w signedContract certificate).trace
          ++ [Event.Println "Перевірка підпису неуспішна"]
    ∧ calls (main w).trace
        = [(Fn.signContract, [contractContent, privateKey, publicKey, certificate]),
           (Fn.verifySignature, [signedContract, certificate])]
    ∧ outputs (main w).trace = [Event.Println "Перевірка підпису неуспішна"]
    ∧ (main w).result = some ()
    ∧ exitStatus (main w) = 0 := by
  have htrace : (main w).trace
        = [Event.ReadFile privateKeyPath, Event.ReadFile publicKeyPath,
           Event.ReadFile certificatePath, Event.ReadFile contractPath]
          ++ (signContract w contractContent privateKey publicKey certificate).trace
          ++ (verifySignature w signedContract certificate).trace
          ++ [Event.Println "Перевірка підпису неуспішна"] := by
    simp [main, Proc.bind, effect, emit, hkey, hpub, hcert, hcontract, hsign, hverify]
  have hres : (main w).result = some () := by
    simp [main, Proc.bind, effect, emit, hkey, hpub, hcert, hcontract, hsign, hverify]
  refine ⟨htrace, ?_, ?_, hres, ?_⟩
  · rw [htrace]
    simp only [calls_append, signContract_calls, verifySignature_calls]
    rfl
  · rw [htrace]
    simp only [outputs_append, signContract_outputs, verifySignature_outputs]
    rfl
  · simp [exitStatus, hres]

end Test

theorem write_mem_outputs (t : List Event) (name : String) (data : Bytes)
    (h : Event.Write name data ∈ t) : Event.Write name data ∈ outputs t := by
  simp [outputs, List.mem_filter, h]

namespace Test

theorem verifiedStart_calls (w : World)
    (privateKey publicKey certificate contractContent signedContract : Bytes) :
    calls (verifiedStart w privateKey publicKey certificate contractContent signedContract)
      = [(Fn.signContract, [contractContent, privateKey, publicKey, certificate]),
         (Fn.verifySignature, [signedContract, certificate])] := by
  unfold verifiedStart
  simp only [calls_append, signContract_calls, verifySignature_calls]
  rfl

theorem verifiedStart_outputs (w : World)
    (privateKey publicKey certificate contractContent signedContract : Bytes) :
    outputs (verifiedStart w privateKey publicKey certificate contractContent signedContract)
      = [Event.Println "Перевірка підпису успішна"] := by
  unfold verifiedStart
  simp only [outputs_append, signContract_outputs, verifySignature_outputs]
  rfl

/-- The run in which `decryptContract` fails after a successful verification. -/
theorem main_decrypt_error (w : World)
    (privateKey publicKey certificate contractContent signedContract data : Bytes) (err : Error)
    (hkey : w.ReadFile privateKeyPath = .ok privateKey)
    (hpub : w.ReadFile publicKeyPath = .ok publicKey)
    (hcert : w.ReadFile certificatePath = .ok certificate)
    (hcontract : w.ReadFile contractPath = .ok contractContent)
    (hsign : (signContract w contractContent privateKey publicKey certificate).result
      = some (signedContract, none))
    (hverify : (verifySignature w signedContract certificate).result = some none)
    (hdecrypt : (decryptContract w signedContract publicKey).result = some (data, some err)) :
    main w = ⟨verifiedStart w privateKey publicKey certificate contractContent signedContract
        ++ (decryptContract w signedContract publicKey).trace
        ++ [Event.Fatalf ("Помилка при розшифруванні контракту: " ++ err)], none⟩ := by
  simp [main, verifiedStart, Proc.bind, effect, emit, Fatalf, hkey, hpub, hcert, hcontract,
    hsign, hverify, hdecrypt]

/-- The run in which `executeContract` fails after a successful decryption. -/
theorem main_execute_error (w : World)
    (privateKey publicKey certificate contractContent signedContract decryptedContract : Bytes)
    (err : Error)
    (hkey : w.ReadFile privateKeyPath = .ok privateKey)
    (hpub : w.ReadFile publicKeyPath = .ok publicKey)
    (hcert : w.ReadFile certificatePath = .ok certificate)
    (hcontract : w.ReadFile contractPath = .ok contractContent)
    (hsign : (signContract w contractContent privateKey publicKey certificate).result
      = some (signedContract, none))
    (hverify : (verifySignature w signedContract certificate).result = some none)
    (hdecrypt : (decryptContract w signedContract publicKey).result
      = some (decryptedContract, none))
    (hexecute : (executeContract w decryptedContract).result = some (some err)) :
    main w = ⟨verifiedStart w privateKey publicKey certificate contractContent signedContract
        ++ (decryptContract w signedContract publicKey).trace
        ++ (executeContract w decryptedContract).trace
        ++ [Event.Fatalf ("Помилка при виконанні контракту: " ++ err)], none⟩ := by
  simp [main, verifiedStart, Proc.bind, effect, emit, Fatalf, hkey, hpub, hcert, hcontract,
    hsign, hverify, hdecrypt, hexecute]

/-- The run in which every stage up to the execution succeeds. -/
theorem main_executed (w : World)
    (privateKey publicKey certificate contractContent signedContract decryptedContract : Bytes)
    (hkey : w.ReadFile privateKeyPath = .ok privateKey)
    (hpub : w.ReadFile publicKeyPath = .ok publicKey)
    (hcert : w.ReadFile certificatePath = .ok certificate)
    (hcontract : w.ReadFile contractPath = .ok contractContent)
    (hsign : (signContract w contractContent privateKey publicKey certificate).result
      = some (signedContract, none))
    (hverify : (verifySignature w signedContract certificate).result = some none)
    (hdecrypt : (decryptContract w signedContract publicKey).result
      = some (decryptedContract, none))
    (hexecute : (executeContract w decryptedContract).result = some none) :
    main w = ⟨verifiedStart w privateKey publicKey certificate contractContent signedContract
        ++ (decryptContract w signedContract publicKey).trace
        ++ (executeContract w decryptedContract).trace
        ++ (saveSignedContract w signedContract signedContractPath).trace
        ++ (match (saveSignedContract w signedContract signedContractPath).result with
            | some (some err) =>
              [Event.Fatalf ("Помилка при збереженні підписаного контракту: " ++ err)]
            | _ => []),
        match (saveSignedContract w signedContract signedContractPath).result with
        | some none => some ()
        | _ => none⟩ := by
  rcases hsave : (saveSignedContract w signedContract signedContractPath).result with _ | _ | err
  · simp [saveSignedContract_result] at hsave
  · simp [main, verifiedStart, Proc.bind, Proc.pure, effect, emit, Fatalf, hkey, hpub, hcert,
      hcontract, hsign, hverify, hdecrypt, hexecute, hsave]
  · simp [main, verifiedStart, Proc.bind, Proc.pure, effect, emit, Fatalf, hkey, hpub, hcert,
      hcontract, hsign, hverify, hdecrypt, hexecute, hsave]


/-- C5. In a run of the pipeline in which every stage succeeds, the four
input files are read first, then `signContract`, `verifySignature`,
`decryptContract`, `executeContract` and `saveSignedContract` are entered once
each and in this order; `executeContract` receives the bytes that
`decryptContract` returned, `saveSignedContract` receives (and writes to
`signed_contract.p7s`) the bytes that `signContract` returned, which are the
bytes that were verified; the process ends with status 0. -/
theorem main_all_stages_succeed (w : World)
    (privateKey publicKey certificate contractContent signedContract decryptedContract : Bytes)
    (hkey : w.ReadFile privateKeyPath = .ok privateKey)
    (hpub : w.ReadFile publicKeyPath = .ok publicKey)
    (hcert : w.ReadFile certificatePath = .ok certificate)
    (hcontract : w.ReadFile contractPath = .ok contractContent)
    (hsign : (signContract w contractContent privateKey publicKey certificate).result
      = some (signedContract, none))
    (hverify : (verifySignature w signedContract certificate).result = some none)
    (hdecrypt : (decryptContract w signedContract publicKey).result
      = some (decryptedContract, none))
    (hexecute : (executeContract w decryptedContract).result = some none)
    (hsave : (saveSignedContract w signedContract signedContractPath).result = some none) :
    (main w).trace
        = [Event.ReadFile privateKeyPath, Event.ReadFile publicKeyPath,
           Event.ReadFile certificatePath, Event.ReadFile contractPath]
          ++ (signContract w contractContent privateKey publicKey certificate).trace
          ++ (verifySignature w signedContract certificate).trace
          ++ [Event.Println "Перевірка підпису успішна"]
          ++ (decryptContract w signedContract publicKey).trace
          ++ (executeContract w decryptedContract).trace
          ++ (saveSignedContract w signedContract signedContractPath).trace
    ∧ calls (main w).trace
        = [(Fn.signContract, [contractContent, privateKey, publicKey, certificate]),
           (Fn.verifySignature, [signedContract, certificate]),
           (Fn.decryptContract, [signedContract, publicKey]),
           (Fn.executeContract, [decryptedContract]),
           (Fn.saveSignedContract, [signedContract])]
    ∧ outputs (main w).trace
        = [Event.Println "Перевірка підпису успішна",
           Event.Run "python3" "-c" decryptedContract,
           Event.Create signedContractPath,
           Event.Write signedContractPath signedContract,
           Event.Close signedContractPath]
    ∧ exitStatus (main w) = 0 := by
  have hmain := main_executed w privateKey publicKey certificate contractContent signedContract
    decryptedContract hkey hpub hcert hcontract hsign hverify hdecrypt hexecute
  rw [hsave] at hmain
  have hcreate : w.Create signedContractPath = none := by
    rw [saveSignedContract_result] at hsave
    cases hc : w.Create signedContractPath with
    | none => rfl
    | some e => simp [hc] at hsave
  refine ⟨?_, ?_, ?_, ?_⟩
  · rw [hmain]
    simp [verifiedStart]
  · rw [hmain]
    simp only [calls_append, verifiedStart_calls, decryptContract_calls, executeContract_eq,
      saveSignedContract_calls]
    rfl
  · rw [hmain]
    simp only [outputs_append, verifiedStart_outputs, decryptContract_outputs,
      executeContract_eq, saveSignedContract_outputs, hcreate]
    rfl
  · rw [hmain]
    rfl

/-- C6. In a run of the pipeline in which the signature verifies: when
`decryptContract` returns an error the process is ended by `log.Fatalf` (status
1) and neither `executeContract` nor `saveSignedContract` is entered; when
`executeContract` returns an error the process is ended by `log.Fatalf` and
`saveSignedContract` is not entered; and the signed contract is handed to the
file `signed_contract.p7s` only when the decrypted contract has been executed
without error. -/
theorem main_fatal_after_verification (w : World)
    (privateKey publicKey certificate contractContent signedContract : Bytes)
    (hkey : w.ReadFile privateKeyPath = .ok privateKey)
    (hpub : w.ReadFile publicKeyPath = .ok publicKey)
    (hcert : w.ReadFile certificatePath = .ok certificate)
    (hcontract : w.ReadFile contractPath = .ok contractContent)
    (hsign : (signContract w contractContent privateKey publicKey certificate).result
      = some (signedContract, none))
    (hverify : (verifySignature w signedContract certificate).result = some none) :
    (∀ data err, (decryptContract w signedContract publicKey).result = some (data, some err) →
      (main w).result = none ∧ exitStatus (main w) = 1
      ∧ calls (main w).trace
          = [(Fn.signContract, [contractContent, privateKey, publicKey, certificate]),
             (Fn.verifySignature, [signedContract, certificate]),
             (Fn.decryptContract, [signedContract, publicKey])]
      ∧ outputs (main w).trace
          = [Event.Println "Перевірка підпису успішна",
             Event.Fatalf ("Помилка при розшифруванні контракту: " ++ err)])
    ∧ (∀ decryptedContract err,
      (decryptContract w signedContract publicKey).result = some (decryptedContract, none) →
      (executeContract w decryptedContract).result = some (some err) →
      (main w).result = none ∧ exitStatus (main w) = 1
      ∧ calls (main w).trace
          = [(Fn.signContract, [contractContent, privateKey, publicKey, certificate]),
             (Fn.verifySignature, [signedContract, certificate]),
             (Fn.decryptContract, [signedContract, publicKey]),
             (Fn.executeContract, [decryptedContract])]
      ∧ outputs (main w).trace
          = [Event.Println "Перевірка підпису успішна",
             Event.Run "python3" "-c" decryptedContract,
             Event.Fatalf ("Помилка при виконанні контракту: " ++ err)])
    ∧ (∀ name data, Event.Write name data ∈ (main w).trace →
      ∃ decryptedContract,
        (decryptContract w signedContract publicKey).result = some (decryptedContract, none)
        ∧ (executeContract w decryptedContract).result = some none
        ∧ name = signedContractPath ∧ data = signedContract) := by
  refine ⟨?_, ?_, ?_⟩
  · intro data err hdecrypt
    have hmain := main_decrypt_error w privateKey publicKey certificate contractContent
      signedContract data err hkey hpub hcert hcontract hsign hverify hdecrypt
    refine ⟨by rw [hmain], by rw [hmain]; rfl, ?_, ?_⟩
    · rw [hmain]
      simp only [calls_append, verifiedStart_calls, decryptContract_calls]
      rfl
    · rw [hmain]
      simp only [outputs_append, verifiedStart_outputs, decryptContract_outputs]
      rfl
  · intro decryptedContract err hdecrypt hexecute
    have hmain := main_execute_error w privateKey publicKey certificate contractContent
      signedContract decryptedContract err hkey hpub hcert hcontract hsign hverify hdecrypt
      hexecute
    refine ⟨by rw [hmain], by rw [hmain]; rfl, ?_, ?_⟩
    · rw [hmain]
      simp only [calls_append, verifiedStart_calls, decryptContract_calls, executeContract_eq]
      rfl
    · rw [hmain]
      simp only [outputs_append, verifiedStart_outputs, decryptContract_outputs,
        executeContract_eq]
      rfl
  · intro name data hmem
    have hout := write_mem_outputs _ name data hmem
    rcases hdecrypt : (decryptContract w signedContract publicKey).result
      with _ | ⟨decryptedContract, _ | err⟩
    · simp [decryptContract_result] at hdecrypt
    · rcases hexecute : (executeContract w decryptedContract).result with _ | _ | err
      · simp [executeContract_eq] at hexecute
      · refine ⟨decryptedContract, rfl, hexecute, ?_⟩
        have hmain := main_executed w privateKey publicKey certificate contractContent
          signedContract decryptedContract hkey hpub hcert hcontract hsign hverify hdecrypt
          hexecute
        rw [hmain] at hout
        simp only [outputs_append, verifiedStart_outputs, decryptContract_outputs,
          executeContract_eq, saveSignedContract_outputs] at hout
        rcases hc : w.Create signedContractPath with _ | e <;>
          rcases hs : (saveSignedContract w signedContract signedContractPath).result
            with _ | _ | e2 <;>
          simp [hc, hs, outputs] at hout <;> exact hout
      · have hmain := main_execute_error w privateKey publicKey certificate contractContent
          signedContract decryptedContract err hkey hpub hcert hcontract hsign hverify hdecrypt
          hexecute
        rw [hmain] at hout
        simp only [outputs_append, verifiedStart_outputs, decryptContract_outputs,
          executeContract_eq] at hout
        simp [outputs] at hout
    · have hmain := main_decrypt_error w privateKey publicKey certificate contractContent
        signedContract decryptedContract err hkey hpub hcert hcontract hsign hverify hdecrypt
      rw [hmain] at hout
      simp only [outputs_append, verifiedStart_outputs, decryptContract_outputs] at hout
      simp [outputs] at hout


/-- C8. On every input `signContract` returns either nil bytes together with
the error of the first stage that fails (certificate parsing, key parsing,
signed-data creation, signer addition, finishing), or, when all five stages
succeed, the bytes that `Finish` produced together with a nil error; a failing
stage never yields bytes. -/
theorem signContract_all_or_nothing (w : World)
    (contract privateKey publicKey certificate : Bytes) :
    ((∃ err, signFailure w contract privateKey certificate err
        ∧ (signContract w contract privateKey publicKey certificate).result
          = some (none, some err))
     ∨ (∃ signedData, signStages w contract privateKey certificate signedData
        ∧ (signContract w contract privateKey publicKey certificate).result
          = some (signedData, none)))
    ∧ (∀ err, signFailure w contract privateKey certificate err →
        (signContract w contract privateKey publicKey certificate).result
          = some (none, some err))
    ∧ (∀ signedData, signStages w contract privateKey certificate signedData →
        (signContract w contract privateKey publicKey certificate).result
          = some (signedData, none)) := by
  rw [signContract_result]
  refine ⟨?_, ?_, ?_⟩
  · cases h1 : w.ParseCertificate certificate with
    | error e => exact Or.inl ⟨e, by simp [signFailure, h1], rfl⟩
    | ok cert =>
      cases h2 : w.ParseECPrivateKey privateKey with
      | error e => exact Or.inl ⟨e, by simp [signFailure, h1, h2], rfl⟩
      | ok key =>
        cases h3 : w.NewSignedData contract with
        | error e => exact Or.inl ⟨e, by simp [signFailure, h1, h2, h3], rfl⟩
        | ok p7 =>
          cases h4 : w.AddSigner p7 cert key with
          | error e => exact Or.inl ⟨e, by simp [signFailure, h1, h2, h3, h4], by simp [h4]⟩
          | ok p7s =>
            cases h5 : w.Finish p7s with
            | error e =>
              exact Or.inl ⟨e, by simp [signFailure, h1, h2, h3, h4, h5], by simp [h4, h5]⟩
            | ok signedData =>
              exact Or.inr ⟨signedData, ⟨cert, key, p7, p7s, h1, h2, h3, h4, h5⟩,
                by simp [h4, h5]⟩
  · intro err hfail
    rcases hfail with h1 | ⟨cert, h1, h2 | ⟨key, h2, h3 | ⟨p7, h3, h4 | ⟨p7s, h4, h5⟩⟩⟩⟩
    · simp [h1]
    · simp [h1, h2]
    · simp [h1, h2, h3]
    · simp [h1, h2, h3, h4]
    · simp [h1, h2, h3, h4, h5]
  · rintro signedData ⟨cert, key, p7, p7s, h1, h2, h3, h4, h5⟩
    simp [h1, h2, h3, h4, h5]

/-- C10. The result of `verifySignature` does not depend on its certificate
argument: for every signed contract and every two certificates the two calls
return the same result and make the same calls into `pkcs7`; the result is the
error of `pkcs7.Parse` on the signed contract, else that of `Verify` on the
parsed message. -/
theorem verifySignature_ignores_certificate (w : World) (signedContract c1 c2 : Bytes) :
    (verifySignature w signedContract c1).result = (verifySignature w signedContract c2).result
    ∧ libCalls (verifySignature w signedContract c1).trace
        = libCalls (verifySignature w signedContract c2).trace
    ∧ (verifySignature w signedContract c1).result = some
        (match w.Parse signedContract with
         | .error err => some err
         | .ok p7 => w.Verify p7) := by
  refine ⟨?_, ?_, verifySignature_result w signedContract c1⟩
  · rw [verifySignature_result, verifySignature_result]
  · rw [verifySignature_libCalls, verifySignature_libCalls]

/-- The calls `decryptContract` makes into the packages when the public key
parses as a certificate and the signed contract parses as a message. -/
theorem decryptContract_libCalls (w : World) (signedContract publicKey : Bytes)
    (cert : w.Certificate) (p7 : w.PKCS7)
    (hcert : w.ParseCertificate publicKey = .ok cert)
    (hparse : w.Parse signedContract = .ok p7) :
    libCalls (decryptContract w signedContract publicKey).trace
      = ["x509.ParseCertificate", "pkcs7.Parse", "pkcs7.Decrypt"] := by
  unfold decryptContract
  cases hd : w.Decrypt p7 cert none <;>
    simp [Proc.bind, Proc.pure, emit, effect, libCalls, hcert, hparse, hd]

/-- C3, the run at the failing input. With a `Decrypt` that rejects every
message that is not enveloped data, as that of `pkcs7` does
(`ErrNotEncryptedContent`), `decryptContract` returns nil bytes and a non-nil
error on every sign-only message, whatever its public-key argument: it never
returns the contract embedded in the message.  When the public-key argument
parses as a certificate it does call `pkcs7.Decrypt` on the signed data. -/
theorem decryptContract_rejects_signed_data (w : World) (signedContract publicKey : Bytes)
    (p7 : w.PKCS7) (hparse : w.Parse signedContract = .ok p7)
    (hsigned : w.isEnveloped p7 = false)
    (hlib : ∀ m cert key, w.isEnveloped m = false → ∃ err, w.Decrypt m cert key = .error err) :
    (∃ err, (decryptContract w signedContract publicKey).result = some (none, some err))
    ∧ (∀ data, (decryptContract w signedContract publicKey).result ≠ some (data, none))
    ∧ (∀ cert, w.ParseCertificate publicKey = .ok cert →
        libCalls (decryptContract w signedContract publicKey).trace
          = ["x509.ParseCertificate", "pkcs7.Parse", "pkcs7.Decrypt"]) := by
  have hres : ∃ err, (decryptContract w signedContract publicKey).result
      = some (none, some err) := by
    rw [decryptContract_result]
    cases hcert : w.ParseCertificate publicKey with
    | error e => exact ⟨e, rfl⟩
    | ok cert =>
      obtain ⟨err, hd⟩ := hlib p7 cert none hsigned
      exact ⟨err, by simp [hparse, hd]⟩
  refine ⟨hres, ?_, ?_⟩
  · intro data h
    obtain ⟨err, he⟩ := hres
    rw [he] at h
    simp at h
  · intro cert hcert
    exact decryptContract_libCalls w signedContract publicKey cert p7 hcert hparse

end Test
namespace KeyGen

/-! ## The identity generator -/

theorem savePrivateKey_result (w : World) (key : w.PrivateKey) :
    (savePrivateKey w key).result = some () := by
  unfold savePrivateKey
  cases w.Create privateKeyPath <;> simp [Proc.bind, Proc.pure, emit, effect, handleError]
  cases h : w.MarshalECPrivateKey key <;> simp [Proc.bind, Proc.pure, emit, effect, handleError]
  rename_i b
  cases w.Encode privateKeyPath "EC PRIVATE KEY" b <;>
    simp [Proc.bind, Proc.pure, emit, effect, handleError]

theorem savePublicKey_result (w : World) (pub : w.PublicKey) :
    (savePublicKey w pub).result = some () := by
  unfold savePublicKey
  cases w.Create publicKeyPath <;> simp [Proc.bind, Proc.pure, emit, effect, handleError]
  cases h : w.MarshalPKIXPublicKey pub <;> simp [Proc.bind, Proc.pure, emit, effect, handleError]
  rename_i b
  cases w.Encode publicKeyPath "PUBLIC KEY" b <;>
    simp [Proc.bind, Proc.pure, emit, effect, handleError]

theorem saveCertificate_result (w : World) (certificate : Bytes) :
    (saveCertificate w certificate).result = some () := by
  unfold saveCertificate
  cases w.Create certPath <;> simp [Proc.bind, Proc.pure, emit, effect, handleError]
  cases w.Encode certPath "CERTIFICATE" certificate <;>
    simp [Proc.bind, Proc.pure, emit, effect, handleError]

/-- The private-key stage calls `handleError` exactly when it does not succeed. -/
theorem savePrivateKey_handleError (w : World) (key : w.PrivateKey) :
    (Fn.handleError, []) ∈ calls (savePrivateKey w key).trace
      ↔ ¬ ∃ keyBytes, privateKeySaved w key keyBytes := by
  unfold savePrivateKey privateKeySaved
  cases hc : w.Create privateKeyPath <;>
    simp [Proc.bind, Proc.pure, emit, effect, handleError, calls]
  cases hm : w.MarshalECPrivateKey key <;>
    simp [Proc.bind, Proc.pure, emit, effect, handleError, calls]
  rename_i b
  cases he : w.Encode privateKeyPath "EC PRIVATE KEY" b <;>
    simp [Proc.bind, Proc.pure, emit, effect, handleError, calls]

theorem savePublicKey_handleError (w : World) (pub : w.PublicKey) :
    (Fn.handleError, []) ∈ calls (savePublicKey w pub).trace
      ↔ ¬ ∃ pubBytes, publicKeySaved w pub pubBytes := by
  unfold savePublicKey publicKeySaved
  cases hc : w.Create publicKeyPath <;>
    simp [Proc.bind, Proc.pure, emit, effect, handleError, calls]
  cases hm : w.MarshalPKIXPublicKey pub <;>
    simp [Proc.bind, Proc.pure, emit, effect, handleError, calls]
  rename_i b
  cases he : w.Encode publicKeyPath "PUBLIC KEY" b <;>
    simp [Proc.bind, Proc.pure, emit, effect, handleError, calls]

theorem saveCertificate_handleError (w : World) (certificate : Bytes) :
    (Fn.handleError, []) ∈ calls (saveCertificate w certificate).trace
      ↔ ¬ (w.Create certPath = none ∧ w.Encode certPath "CERTIFICATE" certificate = none) := by
  unfold saveCertificate
  cases hc : w.Create certPath <;>
    simp [Proc.bind, Proc.pure, emit, effect, handleError, calls]
  cases he : w.Encode certPath "CERTIFICATE" certificate <;>
    simp [Proc.bind, Proc.pure, emit, effect, handleError, calls]

theorem savePrivateKey_success (w : World) (key : w.PrivateKey) (keyBytes : Bytes)
    (h : privateKeySaved w key keyBytes) :
    (savePrivateKey w key).trace = privateKeyEvents keyBytes := by
  obtain ⟨hc, hm, he⟩ := h
  simp [savePrivateKey, privateKeyEvents, Proc.bind, Proc.pure, emit, effect, hc, hm, he]
  rfl

theorem savePublicKey_success (w : World) (pub : w.PublicKey) (pubBytes : Bytes)
    (h : publicKeySaved w pub pubBytes) :
    (savePublicKey w pub).trace = publicKeyEvents pubBytes := by
  obtain ⟨hc, hm, he⟩ := h
  simp [savePublicKey, publicKeyEvents, Proc.bind, Proc.pure, emit, effect, hc, hm, he]
  rfl

/-- The run of `main` after a successful key generation. -/
theorem main_generated (w : World) (key : w.PrivateKey) (hgen : w.GenerateKey = .ok key) :
    main w = ⟨[Event.Enter Fn.generatePrivateKey [], Event.Lib "ecdsa.GenerateKey"]
        ++ (savePrivateKey w key).trace ++ (savePublicKey w (w.Public key)).trace
        ++ [Event.Enter Fn.generateCertificate [], Event.Lib "x509.CreateCertificate"]
        ++ (match w.CreateCertificate (w.Public key) key with
            | .error err => (handleError "Не вдалося створити сертифікат:" err).trace
            | .ok certificate =>
              (saveCertificate w certificate).trace
                ++ [Event.Println "Операції завершено успішно."]),
      some ()⟩ := by
  cases hcert : w.CreateCertificate (w.Public key) key <;>
    simp [main, generatePrivateKey, generateCertificate, Proc.bind, Proc.pure, emit, effect,
      handleError, hgen, hcert, savePrivateKey_result, savePublicKey_result,
      saveCertificate_result]

/-- The run of `main` when key generation fails. -/
theorem main_not_generated (w : World) (err : Error) (hgen : w.GenerateKey = .error err) :
    main w = ⟨[Event.Enter Fn.generatePrivateKey [], Event.Lib "ecdsa.GenerateKey",
        Event.Enter Fn.handleError [],
        Event.Println ("Не вдалося згенерувати приватний ключ:" ++ " " ++ err)], some ()⟩ := by
  simp [main, generatePrivateKey, Proc.bind, Proc.pure, emit, effect, handleError, hgen]


/-- The run of `main` when every stage succeeds. -/
theorem main_success (w : World) (key : w.PrivateKey) (keyBytes pubBytes certificate : Bytes)
    (hgen : w.GenerateKey = .ok key)
    (hpriv : privateKeySaved w key keyBytes)
    (hpub : publicKeySaved w (w.Public key) pubBytes)
    (hcert : certificateSaved w key certificate) :
    (main w).trace
      = [Event.Enter Fn.generatePrivateKey [], Event.Lib "ecdsa.GenerateKey"]
        ++ privateKeyEvents keyBytes ++ publicKeyEvents pubBytes
        ++ certificateEvents certificate := by
  obtain ⟨hcreate, hc, he⟩ := hcert
  rw [main_generated w key hgen, savePublicKey_success w _ pubBytes hpub,
    savePrivateKey_success w key keyBytes hpriv]
  simp [hcreate, saveCertificate, certificateEvents, Proc.bind, Proc.pure, emit, effect, hc, he]
  rfl

/-- C7, as amended. The identity generator ends with status 0 in every run,
whether or not a stage fails.  When every stage succeeds `handleError` is not
called and the last line printed is the success message; when some stage fails
`handleError` is called, which prints its message and the error. -/
theorem main_always_exits_zero (w : World) :
    (main w).result = some () ∧ exitStatus (main w) = 0
    ∧ (Success w → (Fn.handleError, []) ∉ calls (main w).trace
        ∧ ∃ before, (main w).trace = before ++ [Event.Println "Операції завершено успішно."])
    ∧ (¬ Success w → (Fn.handleError, []) ∈ calls (main w).trace)
    ∧ (∀ message err, handleError message err
        = ⟨[Event.Enter Fn.handleError [], Event.Println (message ++ " " ++ err)], some ()⟩) := by
  have hres : (main w).result = some () := by
    cases hgen : w.GenerateKey with
    | error err => rw [main_not_generated w err hgen]
    | ok key => rw [main_generated w key hgen]
  refine ⟨hres, by simp [exitStatus, hres], ?_, ?_, ?_⟩
  · rintro ⟨key, keyBytes, pubBytes, certificate, hgen, hpriv, hpub, hcert⟩
    rw [main_success w key keyBytes pubBytes certificate hgen hpriv hpub hcert]
    constructor
    · simp [calls, privateKeyEvents, publicKeyEvents, certificateEvents]
    · exact ⟨[Event.Enter Fn.generatePrivateKey [], Event.Lib "ecdsa.GenerateKey"]
        ++ privateKeyEvents keyBytes ++ publicKeyEvents pubBytes
        ++ (certificateEvents certificate).dropLast, by simp [certificateEvents]⟩
  · intro hfail
    cases hgen : w.GenerateKey with
    | error err =>
      rw [main_not_generated w err hgen]
      simp [calls]
    | ok key =>
      rw [main_generated w key hgen]
      simp only [calls_append, List.mem_append]
      by_cases h1 : ∃ keyBytes, privateKeySaved w key keyBytes
      · by_cases h2 : ∃ pubBytes, publicKeySaved w (w.Public key) pubBytes
        · obtain ⟨keyBytes, hpriv⟩ := h1
          obtain ⟨pubBytes, hpub⟩ := h2
          cases hcreate : w.CreateCertificate (w.Public key) key with
          | error err =>
            right
            simp [handleError, Proc.bind, emit, calls]
          | ok certificate =>
            right
            simp only [calls_append, List.mem_append]
            left
            rw [saveCertificate_handleError]
            intro hsaved
            exact hfail ⟨key, keyBytes, pubBytes, certificate, hgen, hpriv, hpub, hcreate,
              hsaved.1, hsaved.2⟩
        · exact Or.inl (Or.inl (Or.inr ((savePublicKey_handleError w _).mpr h2)))
      · exact Or.inl (Or.inl (Or.inl (Or.inr ((savePrivateKey_handleError w key).mpr h1))))
  · intro message err
    simp [handleError, Proc.bind, emit]

/-- C7, counterexample. In the environment in which key generation fails, the
generator prints the error and ends with status 0. -/
theorem main_failure_exits_zero :
    noEntropyWorld.GenerateKey = .error "entropy source unavailable"
    ∧ (main noEntropyWorld).trace
        = [Event.Enter Fn.generatePrivateKey [], Event.Lib "ecdsa.GenerateKey",
           Event.Enter Fn.handleError [],
           Event.Println
             "Не вдалося згенерувати приватний ключ: entropy source unavailable"]
    ∧ exitStatus (main noEntropyWorld) = 0 :=
  ⟨rfl, rfl, rfl⟩

/-- C9, the run at the failing input. When the key is generated, the
private-key stage fails (creating the file, encoding the key or writing the
block) and the later stages succeed, the generator reports the error and goes
on: the public-key file and the certificate file are written and the final
success message is printed. -/
theorem main_continues_after_private_key_failure (w : World) (key : w.PrivateKey)
    (pubBytes certificate : Bytes)
    (hgen : w.GenerateKey = .ok key)
    (hfail : ¬ ∃ keyBytes, privateKeySaved w key keyBytes)
    (hpub : publicKeySaved w (w.Public key) pubBytes)
    (hcert : certificateSaved w key certificate) :
    (main w).trace
        = [Event.Enter Fn.generatePrivateKey [], Event.Lib "ecdsa.GenerateKey"]
          ++ (savePrivateKey w key).trace
          ++ publicKeyEvents pubBytes ++ certificateEvents certificate
    ∧ (Fn.handleError, []) ∈ calls (savePrivateKey w key).trace
    ∧ Event.Write publicKeyPath (pemEncode "PUBLIC KEY" pubBytes) ∈ (main w).trace
    ∧ Event.Write certPath (pemEncode "CERTIFICATE" certificate) ∈ (main w).trace
    ∧ Event.Println "Операції завершено успішно." ∈ (main w).trace := by
  obtain ⟨hcreate, hc, he⟩ := hcert
  have htrace : (main w).trace
        = [Event.Enter Fn.generatePrivateKey [], Event.Lib "ecdsa.GenerateKey"]
          ++ (savePrivateKey w key).trace
          ++ publicKeyEvents pubBytes ++ certificateEvents certificate := by
    rw [main_generated w key hgen, savePublicKey_success w _ pubBytes hpub]
    simp [hcreate, saveCertificate, certificateEvents, Proc.bind, Proc.pure, emit, effect, hc, he]
    rfl
  refine ⟨htrace, (savePrivateKey_handleError w key).mpr hfail, ?_, ?_, ?_⟩
  · rw [htrace]
    simp [publicKeyEvents]
  · rw [htrace]
    simp [certificateEvents]
  · rw [htrace]
    simp [certificateEvents]

/-- Witness for C9: the run of `lockedKeyFileWorld`. -/
theorem main_continues_after_private_key_failure_witness :
    lockedKeyFileWorld.Create privateKeyPath = some "permission denied"
    ∧ (main lockedKeyFileWorld).trace
        = [Event.Enter Fn.generatePrivateKey [], Event.Lib "ecdsa.GenerateKey",
           Event.Enter Fn.savePrivateKey [], Event.Create privateKeyPath,
           Event.Enter Fn.handleError [],
           Event.Println "Не вдалося створити файл приватного ключа: permission denied"]
          ++ publicKeyEvents (some [48, 3, 7]) ++ certificateEvents (some [48, 1, 7]) :=
  ⟨rfl, (main_continues_after_private_key_failure lockedKeyFileWorld (7 : Nat)
    (some [48, 3, 7]) (some [48, 1, 7]) rfl
    (by rintro ⟨keyBytes, hcreate, _⟩; exact absurd hcreate (by decide))
    ⟨rfl, rfl, rfl⟩ ⟨rfl, rfl, rfl⟩).1⟩

end KeyGen

/-- A PEM block starts with a dash, not with the DER SEQUENCE tag. -/
theorem firstByte_pemEncode (type : String) (bytes : Bytes) :
    firstByte (pemEncode type bytes) = some 45 := rfl

namespace Test

/-- The run in which `signContract` fails. -/
theorem main_sign_error (w : World)
    (privateKey publicKey certificate contractContent data : Bytes) (err : Error)
    (hkey : w.ReadFile privateKeyPath = .ok privateKey)
    (hpub : w.ReadFile publicKeyPath = .ok publicKey)
    (hcert : w.ReadFile certificatePath = .ok certificate)
    (hcontract : w.ReadFile contractPath = .ok contractContent)
    (hsign : (signContract w contractContent privateKey publicKey certificate).result
      = some (data, some err)) :
    main w = ⟨[Event.ReadFile privateKeyPath, Event.ReadFile publicKeyPath,
          Event.ReadFile certificatePath, Event.ReadFile contractPath]
        ++ (signContract w contractContent privateKey publicKey certificate).trace
        ++ [Event.Fatalf ("Помилка при підписі контракту: " ++ err)], none⟩ := by
  simp [main, Proc.bind, effect, emit, Fatalf, hkey, hpub, hcert, hcontract, hsign]

/-- A certificate parser that accepts only DER rejects every PEM block. -/
theorem parseCertificate_pem (w : World)
    (hder : ∀ b cert, w.ParseCertificate b = .ok cert → firstByte b = some 48)
    (type : String) (der : Bytes) :
    ∃ err, w.ParseCertificate (pemEncode type der) = .error err := by
  cases h : w.ParseCertificate (pemEncode type der) with
  | error err => exact ⟨err, rfl⟩
  | ok cert =>
    have := hder _ cert h
    rw [firstByte_pemEncode] at this
    exact absurd this (by decide)

/-- The parsers of `refWorld` accept only DER. -/
theorem refWorld_parseCertificate_der (b : Bytes) (cert : refWorld.Certificate)
    (h : refWorld.ParseCertificate b = .ok cert) : firstByte b = some 48 := by
  simp only [refWorld] at h
  split at h
  · rfl
  · cases h

theorem refWorld_parseECPrivateKey_der (b : Bytes) (key : refWorld.PrivateKey)
    (h : refWorld.ParseECPrivateKey b = .ok key) : firstByte b = some 48 := by
  simp only [refWorld] at h
  split at h
  · rfl
  · cases h

/-- C2, the run at the failing input. When the key, public-key and
certificate files are the PEM blocks written by a successful run of the identity
generator, and the certificate parser accepts only DER (data that starts with
the SEQUENCE tag 0x30), `signContract` applied to the contents of those files
returns nil bytes and an error, for every contract; the pipeline is ended by
`log.Fatalf` with status 1 and neither `verifySignature` nor `decryptContract`
is entered. -/
theorem main_rejects_generated_identity (g : KeyGen.World) (w : World) (contract : Bytes)
    (hgen : KeyGen.Success g)
    (hder : ∀ b cert, w.ParseCertificate b = .ok cert → firstByte b = some 48)
    (hfiles : ∀ name data, Event.Write name data ∈ (KeyGen.main g).trace →
      w.ReadFile name = .ok data)
    (hcontract : w.ReadFile contractPath = .ok contract) :
    ∃ keyBytes pubBytes certificate err,
      w.ReadFile privateKeyPath = .ok (pemEncode "EC PRIVATE KEY" keyBytes)
      ∧ w.ReadFile publicKeyPath = .ok (pemEncode "PUBLIC KEY" pubBytes)
      ∧ w.ReadFile certificatePath = .ok (pemEncode "CERTIFICATE" certificate)
      ∧ (signContract w contract (pemEncode "EC PRIVATE KEY" keyBytes)
          (pemEncode "PUBLIC KEY" pubBytes) (pemEncode "CERTIFICATE" certificate)).result
        = some (none, some err)
      ∧ (main w).result = none ∧ exitStatus (main w) = 1
      ∧ calls (main w).trace
        = [(Fn.signContract, [contract, pemEncode "EC PRIVATE KEY" keyBytes,
            pemEncode "PUBLIC KEY" pubBytes, pemEncode "CERTIFICATE" certificate])]
      ∧ outputs (main w).trace = [Event.Fatalf ("Помилка при підписі контракту: " ++ err)] := by
  obtain ⟨key, keyBytes, pubBytes, certificate, hg, hpriv, hpub, hcert⟩ := hgen
  have htrace := KeyGen.main_success g key keyBytes pubBytes certificate hg hpriv hpub hcert
  have hkeyFile : w.ReadFile privateKeyPath = .ok (pemEncode "EC PRIVATE KEY" keyBytes) := by
    apply hfiles
    rw [htrace]
    simp [KeyGen.privateKeyEvents, KeyGen.privateKeyPath, privateKeyPath]
  have hpubFile : w.ReadFile publicKeyPath = .ok (pemEncode "PUBLIC KEY" pubBytes) := by
    apply hfiles
    rw [htrace]
    simp [KeyGen.publicKeyEvents, KeyGen.publicKeyPath, publicKeyPath]
  have hcertFile : w.ReadFile certificatePath = .ok (pemEncode "CERTIFICATE" certificate) := by
    apply hfiles
    rw [htrace]
    simp [KeyGen.certificateEvents, KeyGen.certPath, certificatePath]
  obtain ⟨err, hparse⟩ := parseCertificate_pem w hder "CERTIFICATE" certificate
  have hsign : (signContract w contract (pemEncode "EC PRIVATE KEY" keyBytes)
      (pemEncode "PUBLIC KEY" pubBytes) (pemEncode "CERTIFICATE" certificate)).result
        = some (none, some err) := by
    rw [signContract_result, hparse]
  have hmain := main_sign_error w _ _ _ contract none err hkeyFile hpubFile hcertFile
    hcontract hsign
  refine ⟨keyBytes, pubBytes, certificate, err, hkeyFile, hpubFile, hcertFile, hsign,
    by rw [hmain], by rw [hmain]; rfl, ?_, ?_⟩
  · rw [hmain]
    simp only [calls_append, signContract_calls]
    rfl
  · rw [hmain]
    simp only [outputs_append, signContract_outputs]
    rfl

/-- Witness for C2: the files written by `KeyGen.refWorld`, read by `pemWorld`. -/
theorem main_rejects_generated_identity_witness :
    ∃ keyBytes pubBytes certificate err,
      pemWorld.ReadFile privateKeyPath = .ok (pemEncode "EC PRIVATE KEY" keyBytes)
      ∧ pemWorld.ReadFile publicKeyPath = .ok (pemEncode "PUBLIC KEY" pubBytes)
      ∧ pemWorld.ReadFile certificatePath = .ok (pemEncode "CERTIFICATE" certificate)
      ∧ (signContract pemWorld hello (pemEncode "EC PRIVATE KEY" keyBytes)
          (pemEncode "PUBLIC KEY" pubBytes) (pemEncode "CERTIFICATE" certificate)).result
        = some (none, some err)
      ∧ (main pemWorld).result = none ∧ exitStatus (main pemWorld) = 1
      ∧ calls (main pemWorld).trace
        = [(Fn.signContract, [hello, pemEncode "EC PRIVATE KEY" keyBytes,
            pemEncode "PUBLIC KEY" pubBytes, pemEncode "CERTIFICATE" certificate])]
      ∧ outputs (main pemWorld).trace
        = [Event.Fatalf ("Помилка при підписі контракту: " ++ err)] :=
  main_rejects_generated_identity KeyGen.refWorld pemWorld hello
    ⟨(7 : Nat), some [48, 2, 7], some [48, 3, 7], some [48, 1, 7], rfl, ⟨rfl, rfl, rfl⟩,
      ⟨rfl, rfl, rfl⟩, ⟨rfl, rfl, rfl⟩⟩
    refWorld_parseCertificate_der
    (by
      intro name data hmem
      have htrace : (KeyGen.main KeyGen.refWorld).trace
          = [Event.Enter Fn.generatePrivateKey [], Event.Lib "ecdsa.GenerateKey"]
            ++ KeyGen.privateKeyEvents (some [48, 2, 7])
            ++ KeyGen.publicKeyEvents (some [48, 3, 7])
            ++ KeyGen.certificateEvents (some [48, 1, 7]) := rfl
      rw [htrace] at hmem
      simp [KeyGen.privateKeyEvents, KeyGen.publicKeyEvents, KeyGen.certificateEvents] at hmem
      rcases hmem with ⟨h1, h2⟩ | ⟨h1, h2⟩ | ⟨h1, h2⟩ <;> subst h1 <;> subst h2 <;> rfl)
    rfl

/-- C4, the run at the failing input. With parsers that accept only DER,
`signContract` returns nil bytes and an error for every payload (the empty one
included) as soon as the certificate or the private key is handed over as the
PEM block in which the repository stores it; no signed contract exists that
`verifySignature` could accept, and `pkcs7.NewSignedData` is never reached. -/
theorem signContract_rejects_pem (w : World)
    (hcert : ∀ b cert, w.ParseCertificate b = .ok cert → firstByte b = some 48)
    (hkey : ∀ b key, w.ParseECPrivateKey b = .ok key → firstByte b = some 48)
    (payload privateKey publicKey certificate der : Bytes) (type : String) :
    (∃ err, (signContract w payload privateKey publicKey (pemEncode type der)).result
        = some (none, some err))
    ∧ (∃ err, (signContract w payload (pemEncode type der) publicKey certificate).result
        = some (none, some err))
    ∧ libCalls (signContract w payload privateKey publicKey (pemEncode type der)).trace
        = ["x509.ParseCertificate"] := by
  obtain ⟨err, hparse⟩ := parseCertificate_pem w hcert type der
  refine ⟨⟨err, by rw [signContract_result, hparse]⟩, ?_, ?_⟩
  · rw [signContract_result]
    cases h1 : w.ParseCertificate certificate with
    | error e => exact ⟨e, rfl⟩
    | ok cert =>
      cases h2 : w.ParseECPrivateKey (pemEncode type der) with
      | error e => exact ⟨e, rfl⟩
      | ok key =>
        have := hkey _ key h2
        rw [firstByte_pemEncode] at this
        exact absurd this (by decide)
  · simp [signContract, Proc.bind, Proc.pure, emit, effect, libCalls, hparse]

/-- Witness for C4: the empty payload in `pemWorld`. -/
theorem signContract_rejects_pem_witness :
    (signContract pemWorld (some []) (pemEncode "EC PRIVATE KEY" (some [48, 2, 7]))
        (pemEncode "PUBLIC KEY" (some [48, 3, 7]))
        (pemEncode "CERTIFICATE" (some [48, 1, 7]))).result
      = some (none, some "x509: malformed certificate")
    ∧ (signContract pemWorld (some []) (pemEncode "EC PRIVATE KEY" (some [48, 2, 7]))
        (pemEncode "PUBLIC KEY" (some [48, 3, 7])) (some [48, 1, 7])).result
      = some (none, some "x509: failed to parse EC private key")
    ∧ libCalls (signContract pemWorld (some []) (pemEncode "EC PRIVATE KEY" (some [48, 2, 7]))
        (pemEncode "PUBLIC KEY" (some [48, 3, 7]))
        (pemEncode "CERTIFICATE" (some [48, 1, 7]))).trace
      = ["x509.ParseCertificate"] :=
  ⟨rfl, rfl, (signContract_rejects_pem pemWorld refWorld_parseCertificate_der
    refWorld_parseECPrivateKey_der (some []) (pemEncode "EC PRIVATE KEY" (some [48, 2, 7]))
    (pemEncode "PUBLIC KEY" (some [48, 3, 7])) (some [48, 1, 7]) (some [48, 1, 7])
    "CERTIFICATE").2.2⟩


/-- Witness for C1: the run of `mismatchWorld`, where the certificate does not
match the key. -/
theorem main_verification_failure_witness :
    (signContract mismatchWorld hello (some [48, 2, 7]) (some [48, 3, 7])
        (some [48, 1, 8])).result = some (helloEnvelope 8, none)
    ∧ (verifySignature mismatchWorld (helloEnvelope 8) (some [48, 1, 8])).result
        = some (some "pkcs7: signature mismatch")
    ∧ calls (main mismatchWorld).trace
        = [(Fn.signContract, [hello, some [48, 2, 7], some [48, 3, 7], some [48, 1, 8]]),
           (Fn.verifySignature, [helloEnvelope 8, some [48, 1, 8]])]
    ∧ outputs (main mismatchWorld).trace = [Event.Println "Перевірка підпису неуспішна"]
    ∧ exitStatus (main mismatchWorld) = 0 :=
  have h := main_verification_failure mismatchWorld (some [48, 2, 7]) (some [48, 3, 7])
    (some [48, 1, 8]) hello (helloEnvelope 8) "pkcs7: signature mismatch" rfl rfl rfl rfl rfl rfl
  ⟨rfl, rfl, h.2.1, h.2.2.1, h.2.2.2.2⟩

/-- Witness for C5: the run of `idealWorld`. -/
theorem main_all_stages_succeed_witness :
    calls (main idealWorld).trace
        = [(Fn.signContract, [hello, some [48, 2, 7], some [48, 1, 7], some [48, 1, 7]]),
           (Fn.verifySignature, [helloEnvelope 7, some [48, 1, 7]]),
           (Fn.decryptContract, [helloEnvelope 7, some [48, 1, 7]]),
           (Fn.executeContract, [hello]),
           (Fn.saveSignedContract, [helloEnvelope 7])]
    ∧ outputs (main idealWorld).trace
        = [Event.Println "Перевірка підпису успішна",
           Event.Run "python3" "-c" hello,
           Event.Create signedContractPath,
           Event.Write signedContractPath (helloEnvelope 7),
           Event.Close signedContractPath]
    ∧ exitStatus (main idealWorld) = 0 :=
  (main_all_stages_succeed idealWorld (some [48, 2, 7]) (some [48, 1, 7]) (some [48, 1, 7])
    hello (helloEnvelope 7) hello rfl rfl rfl rfl rfl rfl rfl rfl rfl).2

/-- Witness for C6: the run of `refWorld`, where `decryptContract` fails, and
the run of `failingRunWorld`, where `executeContract` fails. -/
theorem main_fatal_after_verification_witness :
    (exitStatus (main refWorld) = 1
      ∧ calls (main refWorld).trace
          = [(Fn.signContract, [hello, some [48, 2, 7], some [48, 3, 7], some [48, 1, 7]]),
             (Fn.verifySignature, [helloEnvelope 7, some [48, 1, 7]]),
             (Fn.decryptContract, [helloEnvelope 7, some [48, 3, 7]])]
      ∧ outputs (main refWorld).trace
          = [Event.Println "Перевірка підпису успішна",
             Event.Fatalf
               "Помилка при розшифруванні контракту: x509: malformed certificate"])
    ∧ (exitStatus (main failingRunWorld) = 1
      ∧ calls (main failingRunWorld).trace
          = [(Fn.signContract, [hello, some [48, 2, 7], some [48, 1, 7], some [48, 1, 7]]),
             (Fn.verifySignature, [helloEnvelope 7, some [48, 1, 7]]),
             (Fn.decryptContract, [helloEnvelope 7, some [48, 1, 7]]),
             (Fn.executeContract, [hello])]
      ∧ outputs (main failingRunWorld).trace
          = [Event.Println "Перевірка підпису успішна",
             Event.Run "python3" "-c" hello,
             Event.Fatalf "Помилка при виконанні контракту: exit status 1"]) :=
  ⟨((main_fatal_after_verification refWorld (some [48, 2, 7]) (some [48, 3, 7])
      (some [48, 1, 7]) hello (helloEnvelope 7) rfl rfl rfl rfl rfl rfl).1
      none "x509: malformed certificate" rfl).2,
   ((main_fatal_after_verification failingRunWorld (some [48, 2, 7]) (some [48, 1, 7])
      (some [48, 1, 7]) hello (helloEnvelope 7) rfl rfl rfl rfl rfl rfl).2.1
      hello "exit status 1" rfl rfl).2⟩

/-- Witness for C3: in `refWorld` the contract `hello` is signed without
error into a sign-only message that verifies and carries `hello` as its
content.  With the public key as argument, as `main` passes it,
`decryptContract` returns nil bytes and the error of the certificate parser;
with the certificate as argument it calls `pkcs7.Decrypt` and returns nil bytes
and `ErrNotEncryptedContent`.  In neither case is the contract returned. -/
theorem decryptContract_rejects_signed_data_witness :
    (signContract refWorld hello (some [48, 2, 7]) (some [48, 3, 7])
        (some [48, 1, 7])).result = some (helloEnvelope 7, none)
    ∧ (verifySignature refWorld (helloEnvelope 7) (some [48, 1, 7])).result = some none
    ∧ refWorld.Parse (helloEnvelope 7) = .ok (helloMessage 7)
    ∧ refWorld.isEnveloped (helloMessage 7) = false
    ∧ refWorld.Content (helloMessage 7) = hello
    ∧ (decryptContract refWorld (helloEnvelope 7) (some [48, 3, 7])).result
        = some (none, some "x509: malformed certificate")
    ∧ (decryptContract refWorld (helloEnvelope 7) (some [48, 1, 7])).result
        = some (none, some ErrNotEncryptedContent)
    ∧ libCalls (decryptContract refWorld (helloEnvelope 7) (some [48, 1, 7])).trace
        = ["x509.ParseCertificate", "pkcs7.Parse", "pkcs7.Decrypt"]
    ∧ (decryptContract refWorld (helloEnvelope 7) (some [48, 3, 7])).result
        ≠ some (hello, none)
    ∧ (decryptContract refWorld (helloEnvelope 7) (some [48, 1, 7])).result
        ≠ some (hello, none) :=
  ⟨rfl, rfl, rfl, rfl, rfl, rfl, rfl,
   (decryptContract_rejects_signed_data refWorld (helloEnvelope 7) (some [48, 1, 7])
      (helloMessage 7) rfl rfl (fun _ _ _ _ => ⟨ErrNotEncryptedContent, rfl⟩)).2.2
      (7 : Nat) rfl,
   (decryptContract_rejects_signed_data refWorld (helloEnvelope 7) (some [48, 3, 7])
      (helloMessage 7) rfl rfl (fun _ _ _ _ => ⟨ErrNotEncryptedContent, rfl⟩)).2.1 hello,
   (decryptContract_rejects_signed_data refWorld (helloEnvelope 7) (some [48, 1, 7])
      (helloMessage 7) rfl rfl (fun _ _ _ _ => ⟨ErrNotEncryptedContent, rfl⟩)).2.1 hello⟩

end Test
end CryptoContract
